import Mathlib

set_option linter.unusedVariables false

/- Shallow embedding of the py-ascii-chess rules engine
   (src/common.py, src/piece.py, src/board.py, src/move.py).

   Pieces are mutable Python objects aliased between the board dictionary
   and local variables, so we model them with an explicit heap: a list of
   piece states indexed by a piece id.  The board dictionary is an
   association list from squares to piece ids.  `save_state` and
   `restore_state` copy only the dictionary and the two king fields and
   never the heap, exactly as in the Python code, so piece-level mutation
   is not undone by a restore.  Files and ranks are integers, as in
   Python.  Fallible operations return `Except` / pair the final state
   with an optional error, mirroring in-place mutation plus exceptions. -/

inductive Color where
  | white
  | black
  deriving DecidableEq

inductive PieceKind where
  | pawn
  | knight
  | bishop
  | rook
  | queen
  | king
  deriving DecidableEq

/-- A board square; `common.py` stores a file (as a letter plus its 1-based
number) and a rank.  Equality in Python compares the letter and the rank,
which is the same as comparing the two numbers. -/
structure PySquare where
  file : Int
  rank : Int
  deriving DecidableEq

/-- The mutable state of one Python piece object: its class (`kind`),
color, `_has_moved` flag, and (meaningful for pawns only) the
`_en_passant` target square. -/
structure PieceState where
  kind : PieceKind
  color : Color
  hasMoved : Bool
  enPassant : Option PySquare
  deriving DecidableEq

/-- A `Board` object together with the heap of piece objects it refers to:
`squares` is the `_squares` dict (square to piece-object id), `heap` the
piece objects themselves, and the two king-location fields. -/
structure GameState where
  squares : List (PySquare × Nat)
  heap : List PieceState
  whiteKing : Option PySquare
  blackKing : Option PySquare
  deriving DecidableEq

/-- The exception classes raised by the engine. -/
inductive Err where
  | valueError
  | invalidMoveError
  | keyError
  deriving DecidableEq

/-- Dictionary lookup on the association list modelling `_squares`. -/
def alookup : List (PySquare × Nat) → PySquare → Option Nat
  | [], _ => none
  | (k, v) :: t, s => if k = s then some v else alookup t s

/-- Dictionary assignment `self._squares[s] = p`: replace an existing
binding or append a new one. -/
def ainsert : List (PySquare × Nat) → PySquare → Nat → List (PySquare × Nat)
  | [], s, v => [(s, v)]
  | (k, w) :: t, s, v => if k = s then (s, v) :: t else (k, w) :: ainsert t s v

/-- Dictionary deletion `del self._squares[s]` (the key is present,
otherwise the caller reports `KeyError`). -/
def aerase : List (PySquare × Nat) → PySquare → List (PySquare × Nat)
  | [], _ => []
  | (k, v) :: t, s => if k = s then t else (k, v) :: aerase t s

/-- In-place mutation of the piece object with id `i` on the heap. -/
def hupdate : List PieceState → Nat → (PieceState → PieceState) → List PieceState
  | [], _, _ => []
  | p :: t, 0, f => f p :: t
  | p :: t, n + 1, f => p :: hupdate t n f

/-- Python `range(a, b)` (step `1`). -/
def rangeUp (a b : Int) : List Int :=
  (List.range' 0 (b - a).toNat).map fun i : Nat => a + (i : Int)

/-- Python `range(a, b, -1)`. -/
def rangeDown (a b : Int) : List Int :=
  (List.range' 0 (a - b).toNat).map fun i : Nat => a - (i : Int)

/-- The coordinate walk shared by the three generators in `common.py`:
`step = 1 if (b - a) > 0 else -1` followed by `range(a + step, b + step, step)`. -/
def stepList (a b : Int) : List Int :=
  if b - a > 0 then rangeUp (a + 1) (b + 1) else rangeDown (a - 1) (b - 1)

/-- `common.horizontal_move_generator`, as the list of squares it yields. -/
def horizontal_move_generator (start toSq : PySquare) : List PySquare :=
  (stepList start.file toSq.file).map fun f => PySquare.mk f start.rank

/-- `common.vertical_move_generator`, as the list of squares it yields. -/
def vertical_move_generator (start toSq : PySquare) : List PySquare :=
  (stepList start.rank toSq.rank).map fun r => PySquare.mk toSq.file r

/-- `common.diagonal_move_generator`: Python `zip` of the two coordinate
ranges (it truncates to the shorter one), then one square per pair. -/
def diagonal_move_generator (start toSq : PySquare) : List PySquare :=
  ((stepList start.file toSq.file).zip (stepList start.rank toSq.rank)).map
    fun p => PySquare.mk p.1 p.2

/-- `Board.is_empty`: the square is not a key of `_squares`. -/
def is_empty (g : GameState) (s : PySquare) : Bool :=
  (alookup g.squares s).isNone

/-- The piece object currently on a square, if the square is bound and the
id is live (in Python a bound id is always live; an unbound square makes
`get_piece` raise `KeyError`). -/
def pieceAt (g : GameState) (s : PySquare) : Option PieceState :=
  match alookup g.squares s with
  | some pid => g.heap[pid]?
  | none => none

/-- Like `pieceAt` but also returning the piece id. -/
def pieceAtId (g : GameState) (s : PySquare) : Option (Nat × PieceState) :=
  match alookup g.squares s with
  | some pid =>
    match g.heap[pid]? with
    | some p => some (pid, p)
    | none => none
  | none => none

/-- `Board.is_piece_of_type_and_color`. -/
def is_piece_of_type_and_color (g : GameState) (s : PySquare) (k : PieceKind) (c : Color) : Bool :=
  match pieceAt g s with
  | some p => p.kind == k && p.color == c
  | none => false

/-- `Board.is_king`. -/
def is_king (g : GameState) (s : PySquare) (c : Color) : Bool :=
  is_piece_of_type_and_color g s PieceKind.king c

/-- `Board.is_rook`. -/
def is_rook (g : GameState) (s : PySquare) (c : Color) : Bool :=
  is_piece_of_type_and_color g s PieceKind.rook c

/-- `Board.is_pawn`. -/
def is_pawn (g : GameState) (s : PySquare) (c : Color) : Bool :=
  is_piece_of_type_and_color g s PieceKind.pawn c

/-- `Board.is_any_pawn`. -/
def is_any_pawn (g : GameState) (s : PySquare) : Bool :=
  match pieceAt g s with
  | some p => p.kind == PieceKind.pawn
  | none => false

/-- `Board.is_piece_of_opposite_color`. -/
def is_piece_of_opposite_color (g : GameState) (s : PySquare) (p : PieceState) : Bool :=
  match pieceAt g s with
  | some q => !(q.color == p.color)
  | none => false

/-- `Board.add_piece`. -/
def add_piece (g : GameState) (pid : Nat) (s : PySquare) : GameState :=
  { g with squares := ainsert g.squares s pid }

/-- `Board.remove_piece`; `del` on a missing key raises `KeyError`
without mutating anything. -/
def remove_piece (g : GameState) (s : PySquare) : Except Err GameState :=
  match alookup g.squares s with
  | some _ => .ok { g with squares := aerase g.squares s }
  | none => .error .keyError

/-- `Board.save_state`: a copy of the `_squares` dict plus the two king
fields; the piece objects themselves are shared, not copied. -/
def save_state (g : GameState) :
    List (PySquare × Nat) × Option PySquare × Option PySquare :=
  (g.squares, g.whiteKing, g.blackKing)

/-- `Board.restore_state`: put back the saved dict and king fields; the
heap of piece objects is untouched. -/
def restore_state (g : GameState)
    (st : List (PySquare × Nat) × Option PySquare × Option PySquare) : GameState :=
  { g with squares := st.1, whiteKing := st.2.1, blackKing := st.2.2 }

/-- The body of `Board.clear_en_passant_squares`: walk the dict and set
`_en_passant = None` on every pawn object found. -/
def clearLoop : List (PySquare × Nat) → List PieceState → List PieceState
  | [], h => h
  | (_, pid) :: t, h =>
    clearLoop t
      (match h[pid]? with
       | some p =>
         if p.kind == PieceKind.pawn then
           hupdate h pid fun q => { q with enPassant := none }
         else h
       | none => h)

/-- `Board.clear_en_passant_squares`. -/
def clear_en_passant_squares (g : GameState) : GameState :=
  { g with heap := clearLoop g.squares g.heap }

/-- The walk in `Piece.is_covering_square`: follow a generator's squares,
succeed on reaching the target, stop at the first occupied square. -/
def coverWalk (g : GameState) (target : PySquare) : List PySquare → Bool
  | [] => false
  | sq :: rest =>
    if sq == target then true
    else if !(is_empty g sq) then false
    else coverWalk g target rest

/-- The `move_generator` methods of `Rook`, `Bishop` and `Queen`
(`Pawn`, `Knight` and `King` all return `None`). -/
def move_generator (k : PieceKind) (start toSq : PySquare) : Option (List PySquare) :=
  match k with
  | .rook =>
    let rank_diff := start.rank - toSq.rank
    let file_diff := start.file - toSq.file
    if !(rank_diff == 0) && !(file_diff == 0) then none
    else if rank_diff == 0 then some (horizontal_move_generator start toSq)
    else some (vertical_move_generator start toSq)
  | .bishop =>
    let file_diff := toSq.file - start.file
    let rank_diff := toSq.rank - start.rank
    if file_diff == 0 || rank_diff == 0 then none
    else if !(file_diff.natAbs == rank_diff.natAbs) then none
    else some (diagonal_move_generator start toSq)
  | .queen =>
    let rank_diff := toSq.rank - start.rank
    let file_diff := toSq.file - start.file
    if rank_diff == 0 then
      if file_diff.natAbs > 0 then some (horizontal_move_generator start toSq) else none
    else if file_diff == 0 then
      if rank_diff.natAbs > 0 then some (vertical_move_generator start toSq) else none
    else if rank_diff.natAbs == file_diff.natAbs then
      some (diagonal_move_generator start toSq)
    else none
  | _ => none

/-- `is_covering_square`, dispatched on the piece class: `Pawn`, `Knight`
and `King` override it with fixed-shape tests, the sliding pieces use the
generic generator walk from `Piece`. -/
def is_covering_square (g : GameState) (p : PieceState) (square target : PySquare) : Bool :=
  match p.kind with
  | .pawn =>
    let req_rank_diff : Int := if p.color == Color.white then 1 else -1
    (target.rank - square.rank == req_rank_diff) && ((target.file - square.file).natAbs == 1)
  | .knight =>
    let file_diff := (target.file - square.file).natAbs
    let rank_diff := (target.rank - square.rank).natAbs
    if file_diff == 1 then rank_diff == 2
    else if rank_diff == 1 then file_diff == 2
    else false
  | .king =>
    if square == target then false
    else (target.file - square.file).natAbs ≤ 1 && (target.rank - square.rank).natAbs ≤ 1
  | k =>
    match move_generator k square target with
    | some moves => coverWalk g target moves
    | none => false

/-- `Board.is_king_in_check`: look up the denormalized king square for the
color (`False` when it is unset) and ask every opposing piece on the board
whether it covers that square. -/
def is_king_in_check (g : GameState) (c : Color) : Bool :=
  match (if c == Color.white then g.whiteKing else g.blackKing) with
  | none => false
  | some sq =>
    g.squares.any fun e =>
      match g.heap[e.2]? with
      | some p => !(p.color == c) && is_covering_square g p e.1 sq
      | none => false

/-- `King.is_path_clear_for_castling`. -/
def is_path_clear_for_castling (g : GameState) (rank end_file : Int) : Bool :=
  let start_file : Int := 5
  let files :=
    if end_file > start_file then rangeUp (start_file + 1) end_file
    else rangeDown (start_file - 1) end_file
  files.all fun f => is_empty g (PySquare.mk f rank)

/-- `Pawn.is_valid_move` (the forward-movement rule in `piece.py`). -/
def pawn_is_valid_move (g : GameState) (p : PieceState) (start toSq : PySquare) : Bool :=
  if !(is_empty g toSq) then false
  else
    let rank_diff := toSq.rank - start.rank
    if rank_diff == 0 || rank_diff.natAbs > 2 then false
    else
      let file_diff := toSq.file - start.file
      if file_diff.natAbs > 1 then false
      else if file_diff == 0 then
        if !(is_empty g toSq) then false
        else if p.color == Color.white then
          (rank_diff == 1) ||
            (rank_diff == 2 && start.rank == 2 && is_empty g (PySquare.mk start.file 3))
        else
          (rank_diff == -1) ||
            (rank_diff == -2 && start.rank == 7 && is_empty g (PySquare.mk start.file 6))
      else
        if is_empty g toSq then false
        else
          match pieceAt g toSq with
          | some cp =>
            if p.color == cp.color then false
            else if p.color == Color.white then rank_diff == 1 else rank_diff == -1
          | none => false

/-- `King.is_valid_move`, including the castling-shape branch. -/
def king_is_valid_move (g : GameState) (p : PieceState) (start toSq : PySquare) : Bool :=
  if start == toSq then false
  else if (toSq.file - start.file).natAbs ≤ 1 && (toSq.rank - start.rank).natAbs ≤ 1 then
    is_empty g toSq
  else
    let rank : Int := if p.color == Color.white then 1 else 8
    if !((start.rank == rank && toSq.rank == rank) &&
         (start.file == 5 && (toSq.file == 1 || toSq.file == 8))) then false
    else if p.hasMoved || !(is_rook g toSq p.color) then false
    else
      match pieceAt g toSq with
      | some rook => if rook.hasMoved then false else is_path_clear_for_castling g rank toSq.file
      | none => false

/-- `is_valid_move`, dispatched on the piece class; the default from
`Piece` is coverage plus an empty destination. -/
def is_valid_move (g : GameState) (p : PieceState) (start toSq : PySquare) : Bool :=
  match p.kind with
  | .pawn => pawn_is_valid_move g p start toSq
  | .king => king_is_valid_move g p start toSq
  | _ => is_covering_square g p start toSq && is_empty g toSq

/-- `is_valid_capture`, dispatched on the piece class: a pawn first
accepts its stored en-passant target, otherwise every piece requires
coverage plus an opposite-color piece on the destination. -/
def is_valid_capture (g : GameState) (p : PieceState) (start toSq : PySquare) : Bool :=
  match p.kind with
  | .pawn =>
    match p.enPassant with
    | some ep =>
      if toSq == ep then true
      else is_covering_square g p start toSq && is_piece_of_opposite_color g toSq p
    | none => is_covering_square g p start toSq && is_piece_of_opposite_color g toSq p
  | _ => is_covering_square g p start toSq && is_piece_of_opposite_color g toSq p

/-- `Move.is_en_passant`: a pawn move to an empty square on a different
file. -/
def is_en_passant (g : GameState) (mFrom mTo : PySquare) : Bool :=
  is_any_pawn g mFrom && is_empty g mTo && !(mFrom.file == mTo.file)

/-- `Move.check_en_passant`: on an en-passant capture, remove the captured
pawn one rank behind the destination.  On the (unreachable) `KeyError`
the board is unchanged. -/
def check_en_passant (g : GameState) (mFrom mTo : PySquare) (p : PieceState) :
    GameState × Option Err :=
  if is_en_passant g mFrom mTo then
    let target_rank := if p.color == Color.white then mTo.rank - 1 else mTo.rank + 1
    match remove_piece g (PySquare.mk mTo.file target_rank) with
    | .ok g' => (g', none)
    | .error e => (g, some e)
  else (g, none)

/-- `Move.update_en_passant_squares`: clear every pawn's target, then if a
pawn just advanced two ranks, set the passed-over square as the target of
any opposing pawn beside the destination. -/
def update_en_passant_squares (g : GameState) (p : PieceState) (mFrom mTo : PySquare) :
    GameState :=
  let g := clear_en_passant_squares g
  if !(p.kind == PieceKind.pawn) then g
  else if !((mTo.rank - mFrom.rank).natAbs == 2) then g
  else
    let target_rank := if p.color == Color.white then mTo.rank - 1 else mTo.rank + 1
    let target := PySquare.mk mTo.file target_rank
    let opposite_color := if p.color == Color.white then Color.black else Color.white
    let sides := [mTo.file - 1, mTo.file + 1].filter fun f => 1 ≤ f && f ≤ 8
    sides.foldl
      (fun g f =>
        let sq := PySquare.mk f mTo.rank
        if is_pawn g sq opposite_color then
          match alookup g.squares sq with
          | some pid =>
            { g with heap := hupdate g.heap pid fun q => { q with enPassant := some target } }
          | none => g
        else g)
      g

/-- `Move.update_king_position`: a moved king updates the matching
denormalized king field to the move's destination square. -/
def update_king_position (g : GameState) (p : PieceState) (mTo : PySquare) : GameState :=
  if p.kind == PieceKind.king then
    if p.color == Color.white then { g with whiteKing := some mTo }
    else { g with blackKing := some mTo }
  else g

/-- `Move.get_piece`: fail on an empty origin or a wrong-color piece. -/
def move_get_piece (g : GameState) (mFrom : PySquare) (c : Color) :
    Except Err (Nat × PieceState) :=
  if is_empty g mFrom then .error .valueError
  else
    match pieceAtId g mFrom with
    | some (pid, p) => if p.color == c then .ok (pid, p) else .error .valueError
    | none => .error .keyError

/-- `Move.set_has_moved` on the piece object with id `pid`. -/
def set_has_moved (g : GameState) (pid : Nat) : GameState :=
  { g with heap := hupdate g.heap pid fun p => { p with hasMoved := true } }

/-- The `valid = piece.is_valid_capture if self._capture else piece.is_valid_move`
selection in `Move.update_board`. -/
def move_validate (g : GameState) (p : PieceState) (mFrom mTo : PySquare) (capture : Bool) :
    Bool :=
  if capture then is_valid_capture g p mFrom mTo else is_valid_move g p mFrom mTo

/-- The `if self._capture: self.check_en_passant(...)` step of
`Move.update_board`. -/
def move_capture_phase (g : GameState) (mFrom mTo : PySquare) (p : PieceState) (capture : Bool) :
    GameState × Option Err :=
  if capture then check_en_passant g mFrom mTo p else (g, none)

/-- The part of `Move.update_board` before the self-check test: resolve
the piece, validate, handle en-passant removal, relocate the piece and
update the king index.  The returned state is the board at the moment the
function returns or raises. -/
def move_attempt (g0 : GameState) (mFrom mTo : PySquare) (capture : Bool) (c : Color) :
    GameState × Except Err (Nat × PieceState) :=
  match move_get_piece g0 mFrom c with
  | .error e => (g0, .error e)
  | .ok (pid, p) =>
    if !(move_validate g0 p mFrom mTo capture) then (g0, .error .valueError)
    else
      match move_capture_phase g0 mFrom mTo p capture with
      | (g1, some e) => (g1, .error e)
      | (g1, none) =>
        match remove_piece g1 mFrom with
        | .error e => (g1, .error e)
        | .ok g2 => (update_king_position (add_piece g2 pid mTo) p mTo, .ok (pid, p))

/-- `Move.update_board`: snapshot, attempt, self-check with rollback, then
the on-success pawn bookkeeping and has-moved flag. -/
def move_update_board (g0 : GameState) (mFrom mTo : PySquare) (capture : Bool) (c : Color) :
    GameState × Option Err :=
  let st := save_state g0
  match move_attempt g0 mFrom mTo capture c with
  | (g1, .error e) => (g1, some e)
  | (g1, .ok (pid, p)) =>
    if is_king_in_check g1 c then (restore_state g1 st, some .invalidMoveError)
    else
      let g2 := if capture then g1 else update_en_passant_squares g1 p mFrom mTo
      (set_has_moved g2 pid, none)

/-- `Castling.king_side` origin and destination squares. -/
def castling_king_side (c : Color) : PySquare × PySquare :=
  let rank : Int := if c == Color.white then 1 else 8
  (PySquare.mk 5 rank, PySquare.mk 8 rank)

/-- `Castling.queen_side` origin and destination squares. -/
def castling_queen_side (c : Color) : PySquare × PySquare :=
  let rank : Int := if c == Color.white then 1 else 8
  (PySquare.mk 5 rank, PySquare.mk 1 rank)

/-- `Castling.update_board`: validate, relocate king and rook, flag both
as moved, clear en-passant targets and update the king index (the code
passes the move's destination, i.e. the rook's corner, to
`update_king_position`). -/
def castling_update_board (g : GameState) (mFrom mTo : PySquare) (c : Color) :
    GameState × Option Err :=
  if is_king g mFrom c then
    match pieceAtId g mFrom with
    | none => (g, some .keyError)
    | some (kid, king) =>
      if is_valid_move g king mFrom mTo then
        if is_king_in_check g c then (g, some .invalidMoveError)
        else
          match pieceAtId g mTo with
          | none => (g, some .keyError)
          | some (rid, _) =>
            let new_king_file : Int := if mTo.file == 8 then 7 else 3
            let new_rook_file : Int := if new_king_file == 7 then 6 else 4
            let rank := mFrom.rank
            let g1 := add_piece g kid (PySquare.mk new_king_file rank)
            let g2 := add_piece g1 rid (PySquare.mk new_rook_file rank)
            match remove_piece g2 mFrom with
            | .error e => (g2, some e)
            | .ok g3 =>
              match remove_piece g3 mTo with
              | .error e => (g3, some e)
              | .ok g4 =>
                let g5 := set_has_moved g4 kid
                let g6 := set_has_moved g5 rid
                let g7 := clear_en_passant_squares g6
                (update_king_position g7 king mTo, none)
      else (g, some .invalidMoveError)
  else (g, some .invalidMoveError)

/-- `Move.is_capture`. -/
def move_is_capture (g : GameState) (mFrom mTo : PySquare) : Bool :=
  if is_en_passant g mFrom mTo then true
  else if is_empty g mFrom || is_empty g mTo then false
  else
    match pieceAt g mFrom, pieceAt g mTo with
    | some p1, some p2 => !(p1.color == p2.color)
    | _, _ => false

/-- The `FILES` list from `common.py`. -/
def filesChars : List Char := ['a', 'b', 'c', 'd', 'e', 'f', 'g', 'h']

/-- The whitespace characters removed by Python 2 `str.strip()` and by
`int()` itself. -/
def isPyWS (c : Char) : Bool :=
  c == ' ' || c == '\t' || c == '\n' || c == '\x0b' || c == '\x0c' || c == '\r'

/-- Python 2 `str.strip()` on a character list. -/
def stripWS (s : List Char) : List Char :=
  ((s.dropWhile isPyWS).reverse.dropWhile isPyWS).reverse

/-- Value of a nonempty all-digit character run. -/
def digitsVal (ds : List Char) : Option Int :=
  if ds ≠ [] ∧ ds.all Char.isDigit then
    some (ds.foldl (fun n c => 10 * n + ((c.toNat : Int) - ('0'.toNat : Int))) 0)
  else none

/-- Python 2 `int(text)`: strip surrounding whitespace, allow one optional
sign, then a nonempty digit run; anything else raises `ValueError`. -/
def pyIntParse (s : List Char) : Option Int :=
  match stripWS s with
  | '+' :: ds => digitsVal ds
  | '-' :: ds => (digitsVal ds).map (fun v => -v)
  | ds => digitsVal ds

/-- `Square.__init__(coordinate)`: the first character must be one of the
`FILES` letters, `int(coordinate[1:].strip())` must be a rank in 1..8;
`none` models the `ValueError` raised otherwise.  The stored file number
is the letter's 1-based index in `FILES`. -/
def squareFromText (s : List Char) : Option PySquare :=
  match s with
  | [] => none
  | ch :: rest =>
    if filesChars.contains ch then
      match pyIntParse (stripWS rest) with
      | some r => if 1 ≤ r ∧ r ≤ 8 then some (PySquare.mk ((filesChars.indexOf ch : Int) + 1) r) else none
      | none => none
    else none

/-- Python 2 `str` of an integer. -/
def pyIntStr (n : Int) : List Char :=
  if n < 0 then '-' :: Nat.toDigits 10 (-n).toNat else Nat.toDigits 10 n.toNat

/-- `Square.__str__`: the stored file letter followed by `str(rank)`; for
a square built from a file number the letter is `FILES[file - 1]`. -/
def formatSquare (s : PySquare) : List Char :=
  filesChars.getD (s.file - 1).toNat '?' :: pyIntStr s.rank

/-- Written from the spec's words for the refinement in C8: the squares
with a coordinate strictly between `a` and `b`, ordered from nearest to
`a`. -/
def btwList (a b : Int) : List Int :=
  if b - a > 0 then rangeUp (a + 1) b else rangeDown (a - 1) b

/-- Written from the spec's words (C8): the squares strictly between two
squares on the same rank, nearest-to-start first. -/
def hBetween (start toSq : PySquare) : List PySquare :=
  (btwList start.file toSq.file).map fun f => PySquare.mk f start.rank

/-- Written from the spec's words (C8): the squares strictly between two
squares on the same file, nearest-to-start first. -/
def vBetween (start toSq : PySquare) : List PySquare :=
  (btwList start.rank toSq.rank).map fun r => PySquare.mk toSq.file r

/-- Written from the spec's words (C8): the squares strictly between two
diagonally related squares, nearest-to-start first. -/
def dBetween (start toSq : PySquare) : List PySquare :=
  ((btwList start.file toSq.file).zip (btwList start.rank toSq.rank)).map
    fun p => PySquare.mk p.1 p.2

/-- Written from the spec's words for C5: the destination holds a piece of
the opposite color to the piece at the origin, or the move matches
"en-passant geometry, i.e. a pawn moving diagonally onto an empty square"
(a diagonal move changes file and rank by the same nonzero amount). -/
def is_capture_spec (g : GameState) (mFrom mTo : PySquare) : Bool :=
  (match pieceAt g mFrom, pieceAt g mTo with
   | some p1, some p2 => !(p1.color == p2.color)
   | _, _ => false) ||
  (is_any_pawn g mFrom && is_empty g mTo &&
    ((mTo.file - mFrom.file).natAbs == (mTo.rank - mFrom.rank).natAbs) &&
    !(mFrom.file == mTo.file))

/-- Lookup after deleting a different key is unchanged. -/
theorem alookup_aerase_ne (l : List (PySquare × Nat)) (s s' : PySquare) (h : s' ≠ s) :
    alookup (aerase l s) s' = alookup l s' := by
  have h' : s ≠ s' := Ne.symm h
  induction l with
  | nil => rfl
  | cons kv t ih =>
    obtain ⟨k, v⟩ := kv
    by_cases hk : k = s
    · simp [aerase, hk, alookup, h']
    · by_cases hk' : k = s'
      · simp [aerase, hk, alookup, hk', h]
      · simp [aerase, hk, alookup, hk', ih]

/-- Lookup at the just-assigned key. -/
theorem alookup_ainsert_self (l : List (PySquare × Nat)) (s : PySquare) (v : Nat) :
    alookup (ainsert l s v) s = some v := by
  induction l with
  | nil => simp [ainsert, alookup]
  | cons kv t ih =>
    obtain ⟨k, w⟩ := kv
    by_cases hk : k = s
    · simp [ainsert, hk, alookup]
    · simp [ainsert, hk, alookup, ih]

/-- Lookup at a different key after an assignment is unchanged. -/
theorem alookup_ainsert_ne (l : List (PySquare × Nat)) (s s' : PySquare) (v : Nat)
    (h : s' ≠ s) : alookup (ainsert l s v) s' = alookup l s' := by
  have h' : s ≠ s' := Ne.symm h
  induction l with
  | nil => simp [ainsert, alookup, h']
  | cons kv t ih =>
    obtain ⟨k, w⟩ := kv
    by_cases hk : k = s
    · simp [ainsert, hk, alookup, h']
    · by_cases hk' : k = s'
      · simp [ainsert, hk, alookup, hk', h]
      · simp [ainsert, hk, alookup, hk', ih]

/-- Heap lookup at the just-updated id. -/
theorem hupdate_getElem_self (h : List PieceState) (i : Nat) (f : PieceState → PieceState)
    (p : PieceState) (hp : h[i]? = some p) : (hupdate h i f)[i]? = some (f p) := by
  induction h generalizing i with
  | nil => simp at hp
  | cons q t ih =>
    cases i with
    | zero => simp_all [hupdate]
    | succ n => simp_all [hupdate, ih]

/-- Heap lookup at a different id after an update is unchanged. -/
theorem hupdate_getElem_ne (h : List PieceState) (i j : Nat) (f : PieceState → PieceState)
    (hij : i ≠ j) : (hupdate h j f)[i]? = h[i]? := by
  induction h generalizing i j with
  | nil => simp [hupdate]
  | cons q t ih =>
    cases j with
    | zero =>
      cases i with
      | zero => exact absurd rfl hij
      | succ m => simp [hupdate]
    | succ n =>
      cases i with
      | zero => simp [hupdate]
      | succ m => simp [hupdate, ih m n (by omega)]

/-- C10: `is_king_in_check(color)` is total and returns `False` whenever
the king-location field of that color is unset. -/
theorem is_king_in_check_unset_field (g : GameState) (c : Color)
    (h : (if c == Color.white then g.whiteKing else g.blackKing) = none) :
    is_king_in_check g c = false := by
  unfold is_king_in_check
  rw [h]

/-- Witness for C10 at a concrete board with no king placed. -/
theorem is_king_in_check_unset_field_witness :
    is_king_in_check (GameState.mk [(⟨5, 2⟩, 0)] [⟨.pawn, .white, false, none⟩] none none)
      Color.white = false :=
  is_king_in_check_unset_field _ _ rfl

/-- A board holding only a white king on e1, a white rook on h1 and a
black king on e8, with both king fields set correctly; white may castle
kingside. -/
def castleDemoBoard : GameState :=
  ⟨[(⟨5, 1⟩, 0), (⟨8, 1⟩, 1), (⟨5, 8⟩, 2)],
   [⟨.king, .white, false, none⟩, ⟨.rook, .white, false, none⟩, ⟨.king, .black, false, none⟩],
   some ⟨5, 1⟩, some ⟨5, 8⟩⟩

/-- C2 (code bug evidence): white kingside castling on `castleDemoBoard`
succeeds, the king piece (id 0) ends on g1, yet the board's white
king-location field is set to h1 — the rook's corner, which is now an
empty square — so the field does not equal the square actually occupied
by the white king. -/
theorem castling_breaks_king_field :
    (castling_update_board castleDemoBoard ⟨5, 1⟩ ⟨8, 1⟩ Color.white).2 = none ∧
    alookup (castling_update_board castleDemoBoard ⟨5, 1⟩ ⟨8, 1⟩ Color.white).1.squares
      ⟨7, 1⟩ = some 0 ∧
    ((castling_update_board castleDemoBoard ⟨5, 1⟩ ⟨8, 1⟩ Color.white).1.heap[0]?).map
      PieceState.kind = some PieceKind.king ∧
    (castling_update_board castleDemoBoard ⟨5, 1⟩ ⟨8, 1⟩ Color.white).1.whiteKing
      = some ⟨8, 1⟩ ∧
    alookup (castling_update_board castleDemoBoard ⟨5, 1⟩ ⟨8, 1⟩ Color.white).1.squares
      ⟨8, 1⟩ = none ∧
    (some (⟨8, 1⟩ : PySquare) ≠ some (⟨7, 1⟩ : PySquare)) := by
  decide

/-- A board with a white pawn on e2, black pawns on d4 and b4, and a
white knight on c3 (no kings, so the self-check guard passes trivially). -/
def epDemoBoard : GameState :=
  ⟨[(⟨5, 2⟩, 0), (⟨4, 4⟩, 1), (⟨3, 3⟩, 2), (⟨2, 4⟩, 3)],
   [⟨.pawn, .white, false, none⟩, ⟨.pawn, .black, false, none⟩,
    ⟨.knight, .white, false, none⟩, ⟨.pawn, .black, false, none⟩],
   none, none⟩

/-- The position after white's double step e2-e4 on `epDemoBoard`. -/
def epDemoBoard2 : GameState :=
  (move_update_board epDemoBoard ⟨5, 2⟩ ⟨5, 4⟩ false Color.white).1

/-- The position after black then captures b4xc3 on `epDemoBoard2`. -/
def epDemoBoard3 : GameState :=
  (move_update_board epDemoBoard2 ⟨2, 4⟩ ⟨3, 3⟩ true Color.black).1

/-- C3 (code bug evidence): the double step e2-e4 succeeds and sets the
en-passant target e3 on the black d4 pawn (heap id 1); black's capture
b4xc3 on the next ply also succeeds, yet the d4 pawn — still on the
board — keeps its en-passant target, because `Move.update_board` only
calls `update_en_passant_squares` for non-capturing moves. -/
theorem en_passant_survives_capture_ply :
    (move_update_board epDemoBoard ⟨5, 2⟩ ⟨5, 4⟩ false Color.white).2 = none ∧
    (epDemoBoard2.heap[1]?).map PieceState.enPassant = some (some ⟨5, 3⟩) ∧
    (move_update_board epDemoBoard2 ⟨2, 4⟩ ⟨3, 3⟩ true Color.black).2 = none ∧
    alookup epDemoBoard3.squares ⟨4, 4⟩ = some 1 ∧
    (epDemoBoard3.heap[1]?).map PieceState.enPassant = some (some ⟨5, 3⟩) := by
  decide

/-- The first disjunct of C5, from the spec's words: the destination
square holds a piece of the opposite color to the piece at the origin. -/
def oppositeAt (g : GameState) (mFrom mTo : PySquare) : Bool :=
  match pieceAt g mFrom, pieceAt g mTo with
  | some p1, some p2 => !(p1.color == p2.color)
  | _, _ => false

/-- A board holding only a white pawn on a2. -/
def lonePawnBoard : GameState :=
  ⟨[(⟨1, 2⟩, 0)], [⟨.pawn, .white, false, none⟩], none, none⟩

/-- C5 counterexample: for the move a2-c5 on `lonePawnBoard`,
`is_capture` returns `True` although the destination is empty and the
move is not diagonal (two files over, three ranks up), refuting the
claimed characterisation. -/
theorem is_capture_not_diagonal_geometry :
    move_is_capture lonePawnBoard ⟨1, 2⟩ ⟨3, 5⟩ = true ∧
    is_capture_spec lonePawnBoard ⟨1, 2⟩ ⟨3, 5⟩ = false := by
  decide

/-- C5 amended: `is_capture` returns `True` iff the destination holds a
piece of the opposite color to the piece at the origin, or the move
matches the code's en-passant test — origin holds a pawn, destination is
empty and the files differ (no diagonality requirement). -/
theorem is_capture_characterisation (g : GameState) (mFrom mTo : PySquare) :
    move_is_capture g mFrom mTo = (oppositeAt g mFrom mTo || is_en_passant g mFrom mTo) := by
  unfold move_is_capture oppositeAt
  cases hep : is_en_passant g mFrom mTo with
  | true => simp [hep]
  | false =>
    simp only [hep, Bool.false_eq_true, if_false, Bool.or_false]
    cases hf : is_empty g mFrom with
    | true =>
      have hl : alookup g.squares mFrom = none := by
        simpa [is_empty, Option.isNone_iff_eq_none] using hf
      simp [hf, pieceAt, hl]
    | false =>
      cases ht : is_empty g mTo with
      | true =>
        have hl : alookup g.squares mTo = none := by
          simpa [is_empty, Option.isNone_iff_eq_none] using ht
        simp [hf, ht, pieceAt, hl]
      | false =>
        simp [hf, ht]

/-- C6: constructing a `Square` from text fails when the first character
is not a file letter, fails when the trimmed remainder does not parse as
an integer in 1..8, and succeeds with exactly that file and rank on every
text of the valid form. -/
theorem square_construction_characterisation (s : List Char) :
    ((∀ ch, s.head? = some ch → filesChars.contains ch = false) → squareFromText s = none) ∧
    (∀ ch rest, s = ch :: rest →
       (∀ r : Int, pyIntParse (stripWS rest) = some r → ¬(1 ≤ r ∧ r ≤ 8)) →
       squareFromText s = none) ∧
    (∀ ch rest (r : Int), s = ch :: rest → filesChars.contains ch = true →
       pyIntParse (stripWS rest) = some r → 1 ≤ r → r ≤ 8 →
       squareFromText s = some (PySquare.mk ((filesChars.indexOf ch : Int) + 1) r)) := by
  refine ⟨?_, ?_, ?_⟩
  · intro h
    cases s with
    | nil => rfl
    | cons ch rest =>
      have hmem : ch ∉ filesChars := by simpa using h ch rfl
      simp [squareFromText, hmem]
  · intro ch rest hs h
    subst hs
    unfold squareFromText
    cases hc : filesChars.contains ch with
    | false =>
      have hmem : ch ∉ filesChars := by simpa using hc
      simp [hmem]
    | true =>
      cases hp : pyIntParse (stripWS rest) with
      | none => simp [hp]
      | some r => simp [hp, h r hp]
  · intro ch rest r hs hc hp h1 h8
    subst hs
    have hmem : ch ∈ filesChars := by simpa using hc
    simp [squareFromText, hmem, hp, h1, h8]

/-- Witness for C6: the bad file text `"94"`, the bad rank text `"a9"`,
and the valid text `"e4"`, which yields file 5, rank 4. -/
theorem square_construction_witness :
    squareFromText ['9', '4'] = none ∧
    squareFromText ['a', '9'] = none ∧
    squareFromText ['e', '4'] = some (PySquare.mk 5 4) := by
  refine ⟨?_, ?_, ?_⟩
  · exact (square_construction_characterisation ['9', '4']).1 (by decide)
  · exact (square_construction_characterisation ['a', '9']).2.1 'a' ['9'] rfl (by decide)
  · exact (square_construction_characterisation ['e', '4']).2.2 'e' ['4'] 4 rfl (by decide)
      (by decide) (by decide) (by decide)

/-- C7: parsing the text produced by formatting any valid square yields
an equal square. -/
theorem square_format_roundtrip (f r : Int)
    (hf1 : 1 ≤ f) (hf8 : f ≤ 8) (hr1 : 1 ≤ r) (hr8 : r ≤ 8) :
    squareFromText (formatSquare (PySquare.mk f r)) = some (PySquare.mk f r) := by
  interval_cases f <;> interval_cases r <;> decide

/-- Witness for C7 at the square e4. -/
theorem square_format_roundtrip_witness :
    squareFromText (formatSquare (PySquare.mk 5 4)) = some (PySquare.mk 5 4) :=
  square_format_roundtrip 5 4 (by decide) (by decide) (by decide) (by decide)

/-- The generator walk for an increasing coordinate, as a mapped range. -/
theorem stepList_of_lt (a b : Int) (h : a < b) :
    stepList a b = (List.range' 0 (b - a).toNat).map (fun i : Nat => a + 1 + (i : Int)) := by
  unfold stepList rangeUp
  rw [if_pos (by omega)]
  have hb : b + 1 - (a + 1) = b - a := by ring
  rw [hb]

/-- The generator walk for a decreasing coordinate, as a mapped range. -/
theorem stepList_of_gt (a b : Int) (h : b < a) :
    stepList a b = (List.range' 0 (a - b).toNat).map (fun i : Nat => a - 1 - (i : Int)) := by
  unfold stepList rangeDown
  rw [if_neg (by omega)]
  have hb : a - 1 - (b - 1) = a - b := by ring
  rw [hb]

/-- The strictly-between coordinates for an increasing walk. -/
theorem btwList_of_lt (a b : Int) (h : a < b) :
    btwList a b = (List.range' 0 ((b - a).toNat - 1)).map (fun i : Nat => a + 1 + (i : Int)) := by
  unfold btwList rangeUp
  rw [if_pos (by omega)]
  have hb : (b - (a + 1)).toNat = (b - a).toNat - 1 := by omega
  rw [hb]

/-- The strictly-between coordinates for a decreasing walk. -/
theorem btwList_of_gt (a b : Int) (h : b < a) :
    btwList a b = (List.range' 0 ((a - b).toNat - 1)).map (fun i : Nat => a - 1 - (i : Int)) := by
  unfold btwList rangeDown
  rw [if_neg (by omega)]
  have hb : (a - 1 - b).toNat = (a - b).toNat - 1 := by omega
  rw [hb]

/-- A generator's coordinate walk is the strictly-between coordinates
followed by the end coordinate. -/
theorem stepList_eq_btwList_concat (a b : Int) (h : a ≠ b) :
    stepList a b = btwList a b ++ [b] := by
  rcases lt_or_gt_of_ne h with hlt | hgt
  · obtain ⟨m, hm⟩ : ∃ m, (b - a).toNat = m + 1 := ⟨(b - a).toNat - 1, by omega⟩
    rw [stepList_of_lt a b hlt, btwList_of_lt a b hlt, hm, Nat.add_sub_cancel,
      List.range'_concat, List.map_append]
    congr 1
    simp only [List.map_cons, List.map_nil, List.cons.injEq, and_true]
    omega
  · obtain ⟨m, hm⟩ : ∃ m, (a - b).toNat = m + 1 := ⟨(a - b).toNat - 1, by omega⟩
    rw [stepList_of_gt a b hgt, btwList_of_gt a b hgt, hm, Nat.add_sub_cancel,
      List.range'_concat, List.map_append]
    congr 1
    simp only [List.map_cons, List.map_nil, List.cons.injEq, and_true]
    omega

/-- C8: for distinct squares on a rank, a file, or a true diagonal, the
matching move generator yields exactly the squares strictly between start
and end, nearest-to-start first, followed by the end square. -/
theorem move_generators_exact :
    (∀ s t : PySquare, s.rank = t.rank → s.file ≠ t.file →
       horizontal_move_generator s t = hBetween s t ++ [t]) ∧
    (∀ s t : PySquare, s.file = t.file → s.rank ≠ t.rank →
       vertical_move_generator s t = vBetween s t ++ [t]) ∧
    (∀ s t : PySquare, (t.file - s.file).natAbs = (t.rank - s.rank).natAbs →
       s.file ≠ t.file →
       diagonal_move_generator s t = dBetween s t ++ [t]) := by
  refine ⟨?_, ?_, ?_⟩
  · intro s t hr hf
    obtain ⟨sf, sr⟩ := s
    obtain ⟨tf, tr⟩ := t
    dsimp at hr hf
    subst hr
    unfold horizontal_move_generator hBetween
    rw [stepList_eq_btwList_concat sf tf hf, List.map_append]
    rfl
  · intro s t hf hr
    obtain ⟨sf, sr⟩ := s
    obtain ⟨tf, tr⟩ := t
    dsimp at hr hf
    subst hf
    unfold vertical_move_generator vBetween
    rw [stepList_eq_btwList_concat sr tr hr, List.map_append]
    rfl
  · intro s t hd hf
    obtain ⟨sf, sr⟩ := s
    obtain ⟨tf, tr⟩ := t
    dsimp at hd hf
    have hr : sr ≠ tr := by
      intro h
      subst h
      omega
    unfold diagonal_move_generator dBetween
    rcases lt_or_gt_of_ne hf with hfl | hfg <;> rcases lt_or_gt_of_ne hr with hrl | hrg
    · have hn : (tr - sr).toNat = (tf - sf).toNat := by omega
      obtain ⟨m, hm⟩ : ∃ m, (tf - sf).toNat = m + 1 := ⟨(tf - sf).toNat - 1, by omega⟩
      rw [stepList_of_lt sf tf hfl, stepList_of_lt sr tr hrl,
        btwList_of_lt sf tf hfl, btwList_of_lt sr tr hrl, hn, hm, Nat.add_sub_cancel,
        List.zip_map', List.zip_map', List.map_map, List.map_map,
        List.range'_concat, List.map_append]
      congr 1
      simp only [List.map_cons, List.map_nil, Function.comp_apply, List.cons.injEq, and_true,
        PySquare.mk.injEq]
      constructor <;> omega
    · have hn : (sr - tr).toNat = (tf - sf).toNat := by omega
      obtain ⟨m, hm⟩ : ∃ m, (tf - sf).toNat = m + 1 := ⟨(tf - sf).toNat - 1, by omega⟩
      rw [stepList_of_lt sf tf hfl, stepList_of_gt sr tr hrg,
        btwList_of_lt sf tf hfl, btwList_of_gt sr tr hrg, hn, hm, Nat.add_sub_cancel,
        List.zip_map', List.zip_map', List.map_map, List.map_map,
        List.range'_concat, List.map_append]
      congr 1
      simp only [List.map_cons, List.map_nil, Function.comp_apply, List.cons.injEq, and_true,
        PySquare.mk.injEq]
      constructor <;> omega
    · have hn : (tr - sr).toNat = (sf - tf).toNat := by omega
      obtain ⟨m, hm⟩ : ∃ m, (sf - tf).toNat = m + 1 := ⟨(sf - tf).toNat - 1, by omega⟩
      rw [stepList_of_gt sf tf hfg, stepList_of_lt sr tr hrl,
        btwList_of_gt sf tf hfg, btwList_of_lt sr tr hrl, hn, hm, Nat.add_sub_cancel,
        List.zip_map', List.zip_map', List.map_map, List.map_map,
        List.range'_concat, List.map_append]
      congr 1
      simp only [List.map_cons, List.map_nil, Function.comp_apply, List.cons.injEq, and_true,
        PySquare.mk.injEq]
      constructor <;> omega
    · have hn : (sr - tr).toNat = (sf - tf).toNat := by omega
      obtain ⟨m, hm⟩ : ∃ m, (sf - tf).toNat = m + 1 := ⟨(sf - tf).toNat - 1, by omega⟩
      rw [stepList_of_gt sf tf hfg, stepList_of_gt sr tr hrg,
        btwList_of_gt sf tf hfg, btwList_of_gt sr tr hrg, hn, hm, Nat.add_sub_cancel,
        List.zip_map', List.zip_map', List.map_map, List.map_map,
        List.range'_concat, List.map_append]
      congr 1
      simp only [List.map_cons, List.map_nil, Function.comp_apply, List.cons.injEq, and_true,
        PySquare.mk.injEq]
      constructor <;> omega

/-- Witness for C8 on the rank b3-f3, the file d7-d2 and the diagonal
f6-b2. -/
theorem move_generators_exact_witness :
    horizontal_move_generator ⟨2, 3⟩ ⟨6, 3⟩ = hBetween ⟨2, 3⟩ ⟨6, 3⟩ ++ [⟨6, 3⟩] ∧
    vertical_move_generator ⟨4, 7⟩ ⟨4, 2⟩ = vBetween ⟨4, 7⟩ ⟨4, 2⟩ ++ [⟨4, 2⟩] ∧
    diagonal_move_generator ⟨6, 6⟩ ⟨2, 2⟩ = dBetween ⟨6, 6⟩ ⟨2, 2⟩ ++ [⟨2, 2⟩] :=
  ⟨move_generators_exact.1 ⟨2, 3⟩ ⟨6, 3⟩ (by decide) (by decide),
   move_generators_exact.2.1 ⟨4, 7⟩ ⟨4, 2⟩ (by decide) (by decide),
   move_generators_exact.2.2 ⟨6, 6⟩ ⟨2, 2⟩ (by decide) (by decide)⟩

/-- Removing a piece never touches the heap of piece objects. -/
theorem remove_piece_heap (g : GameState) (s : PySquare) (g' : GameState)
    (h : remove_piece g s = .ok g') : g'.heap = g.heap := by
  unfold remove_piece at h
  cases hl : alookup g.squares s with
  | some pid => rw [hl] at h; cases h; rfl
  | none => rw [hl] at h; cases h

/-- The en-passant removal step never touches the heap. -/
theorem check_en_passant_heap (g : GameState) (f t : PySquare) (p : PieceState) :
    (check_en_passant g f t p).1.heap = g.heap := by
  unfold check_en_passant
  split
  · dsimp only
    split
    · next g' heq => exact remove_piece_heap _ _ _ heq
    · rfl
  · rfl

/-- Updating a king-location field never touches the heap. -/
theorem update_king_position_heap (g : GameState) (p : PieceState) (t : PySquare) :
    (update_king_position g p t).heap = g.heap := by
  unfold update_king_position
  split
  · split <;> rfl
  · rfl

/-- The capture phase of `Move.update_board` never touches the heap. -/
theorem move_capture_phase_heap (g : GameState) (f t : PySquare) (p : PieceState) (cap : Bool) :
    (move_capture_phase g f t p cap).1.heap = g.heap := by
  unfold move_capture_phase
  cases cap with
  | true => simpa using check_en_passant_heap g f t p
  | false => rfl

/-- The whole pre-self-check phase of `Move.update_board` never touches
the heap: it only rewrites the square dictionary. -/
theorem move_attempt_heap (g : GameState) (f t : PySquare) (cap : Bool) (c : Color) :
    (move_attempt g f t cap c).1.heap = g.heap := by
  unfold move_attempt
  cases hgp : move_get_piece g f c with
  | error e => rfl
  | ok pp =>
    obtain ⟨pid, p⟩ := pp
    cases hv : (!(move_validate g p f t cap)) with
    | true => simp only [hv, if_true]
    | false =>
      simp only [hv, Bool.false_eq_true, if_false]
      cases hcp : move_capture_phase g f t p cap with
      | mk g1 oe =>
        have h1 : g1.heap = g.heap := by
          have := move_capture_phase_heap g f t p cap
          rw [hcp] at this
          exact this
        cases oe with
        | some e => simpa using h1
        | none =>
          simp only
          cases hrp : remove_piece g1 f with
          | error e => simpa using h1
          | ok g2 =>
            simp only [update_king_position_heap, add_piece]
            exact (remove_piece_heap _ _ _ hrp).trans h1

/-- C9: whenever `Move.update_board` or `Castling.update_board` raises,
no piece-level mutable state has changed: the heap of piece objects
(has-moved flags and pawn en-passant targets) is exactly the pre-attempt
heap, because those mutations happen only after every validation has
passed. -/
theorem piece_state_unchanged_on_error :
    (∀ (g : GameState) (f t : PySquare) (cap : Bool) (c : Color) (e : Err),
       (move_update_board g f t cap c).2 = some e →
       (move_update_board g f t cap c).1.heap = g.heap) ∧
    (∀ (g : GameState) (f t : PySquare) (c : Color) (e : Err),
       (castling_update_board g f t c).2 = some e →
       (castling_update_board g f t c).1.heap = g.heap) := by
  constructor
  · intro g f t cap c e h
    unfold move_update_board at h ⊢
    cases hA : move_attempt g f t cap c with
    | mk g1 res =>
      have hh : g1.heap = g.heap := by
        have := move_attempt_heap g f t cap c
        rw [hA] at this
        exact this
      rw [hA] at h
      cases res with
      | error e' => simpa using hh
      | ok pp =>
        obtain ⟨pid, p⟩ := pp
        cases hc : is_king_in_check g1 c with
        | true =>
          simp only [hc, if_true]
          simpa [restore_state] using hh
        | false =>
          exact absurd h (by simp [hc])
  · intro g f t c e h
    unfold castling_update_board at h ⊢
    cases hik : is_king g f c with
    | false =>
      simp only [hik, Bool.false_eq_true, if_false]
    | true =>
      simp only [hik, if_true] at h ⊢
      cases hpa : pieceAtId g f with
      | none => simp only [hpa]
      | some kk =>
        obtain ⟨kid, K⟩ := kk
        simp only [hpa] at h ⊢
        cases hv : is_valid_move g K f t with
        | false => simp only [hv, Bool.false_eq_true, if_false]
        | true =>
          simp only [hv, if_true] at h ⊢
          cases hchk : is_king_in_check g c with
          | true => simp only [hchk, if_true]
          | false =>
            simp only [hchk, Bool.false_eq_true, if_false] at h ⊢
            cases hpr : pieceAtId g t with
            | none => simp only [hpr]
            | some rr =>
              obtain ⟨rid, R⟩ := rr
              simp only [hpr] at h ⊢
              cases hr1 : remove_piece (add_piece (add_piece g kid ⟨if t.file == 8 then 7 else 3, f.rank⟩) rid ⟨if (if t.file == 8 then (7 : Int) else 3) == 7 then 6 else 4, f.rank⟩) f with
              | error e1 =>
                simp only [hr1, add_piece]
              | ok g3 =>
                simp only [hr1] at h ⊢
                cases hr2 : remove_piece g3 t with
                | error e2 =>
                  simp only [hr2]
                  have h3 := remove_piece_heap _ _ _ hr1
                  simpa [add_piece] using h3
                | ok g4 =>
                  simp only [hr2] at h
                  simp at h

/-- A board with the white king on e1, a white rook on e2 shielding it,
and a black rook on e8; both king fields are set. -/
def exposedCheckBoard : GameState :=
  ⟨[(⟨5, 1⟩, 0), (⟨5, 2⟩, 1), (⟨5, 8⟩, 2)],
   [⟨.king, .white, false, none⟩, ⟨.rook, .white, false, none⟩, ⟨.rook, .black, false, none⟩],
   some ⟨5, 1⟩, some ⟨5, 8⟩⟩

/-- Witness for C9: a rejected simple move (e2-e2 is no legal rook move)
and a rejected castling attempt (no rook on h1's side  — the h1 square is
empty on this board) both leave the piece heap untouched. -/
theorem piece_state_unchanged_on_error_witness :
    (move_update_board exposedCheckBoard ⟨5, 2⟩ ⟨5, 2⟩ false Color.white).1.heap
      = exposedCheckBoard.heap ∧
    (castling_update_board exposedCheckBoard ⟨5, 1⟩ ⟨8, 1⟩ Color.white).1.heap
      = exposedCheckBoard.heap :=
  ⟨piece_state_unchanged_on_error.1 exposedCheckBoard ⟨5, 2⟩ ⟨5, 2⟩ false Color.white
      Err.valueError (by decide),
   piece_state_unchanged_on_error.2 exposedCheckBoard ⟨5, 1⟩ ⟨8, 1⟩ Color.white
      Err.invalidMoveError (by decide)⟩

/-- Removing a piece erases exactly that square's binding. -/
theorem remove_piece_squares (g : GameState) (s : PySquare) (g' : GameState)
    (h : remove_piece g s = .ok g') : g'.squares = aerase g.squares s := by
  unfold remove_piece at h
  cases hl : alookup g.squares s with
  | some pid => rw [hl] at h; cases h; rfl
  | none => rw [hl] at h; cases h

/-- An en-passant-flagged move changes file. -/
theorem is_en_passant_file_ne (g : GameState) (f t : PySquare)
    (h : is_en_passant g f t = true) : f.file ≠ t.file := by
  unfold is_en_passant at h
  simp only [Bool.and_eq_true, bne_iff_ne, ne_eq] at h
  simpa using h.2

/-- The en-passant removal step never unbinds the origin square, because
the pawn it removes sits on the destination file. -/
theorem check_en_passant_from_preserved (g : GameState) (f t : PySquare) (p : PieceState) :
    alookup (check_en_passant g f t p).1.squares f = alookup g.squares f := by
  unfold check_en_passant
  split
  · next hep =>
    have hff : f.file ≠ t.file := is_en_passant_file_ne g f t hep
    dsimp only
    split
    · next g' heq =>
      rw [remove_piece_squares _ _ _ heq]
      exact alookup_aerase_ne _ _ _ (by intro h2; apply hff; rw [h2])
    · rfl
  · rfl

/-- A failing en-passant removal leaves the board untouched. -/
theorem check_en_passant_error_state (g : GameState) (f t : PySquare) (p : PieceState)
    (g1 : GameState) (e : Err) (h : check_en_passant g f t p = (g1, some e)) : g1 = g := by
  unfold check_en_passant at h
  split at h
  · dsimp only at h
    split at h
    · cases h
    · cases h; rfl
  · cases h

/-- The capture phase never unbinds the origin square. -/
theorem move_capture_phase_from_preserved (g : GameState) (f t : PySquare) (p : PieceState)
    (cap : Bool) :
    alookup (move_capture_phase g f t p cap).1.squares f = alookup g.squares f := by
  unfold move_capture_phase
  cases cap with
  | true => simpa using check_en_passant_from_preserved g f t p
  | false => rfl

/-- A failing capture phase leaves the board untouched. -/
theorem move_capture_phase_error_state (g : GameState) (f t : PySquare) (p : PieceState)
    (cap : Bool) (g1 : GameState) (e : Err)
    (h : move_capture_phase g f t p cap = (g1, some e)) : g1 = g := by
  unfold move_capture_phase at h
  cases cap with
  | true => exact check_en_passant_error_state g f t p g1 e (by simpa using h)
  | false => simp at h

/-- A successfully resolved piece means the origin square is bound. -/
theorem move_get_piece_ok_alookup (g : GameState) (f : PySquare) (c : Color)
    (pid : Nat) (p : PieceState) (h : move_get_piece g f c = .ok (pid, p)) :
    alookup g.squares f = some pid := by
  unfold move_get_piece at h
  split at h
  · cases h
  · unfold pieceAtId at h
    cases hl : alookup g.squares f with
    | none => rw [hl] at h; cases h
    | some pid' =>
      rw [hl] at h
      dsimp only at h
      cases hh : g.heap[pid']? with
      | none => rw [hh] at h; cases h
      | some p' =>
        rw [hh] at h
        dsimp only at h
        split at h
        · cases h; rfl
        · cases h

/-- Every error exit of the pre-self-check phase happens with the board
exactly as it was handed in. -/
theorem move_attempt_error_state (g : GameState) (f t : PySquare) (cap : Bool) (c : Color)
    (g1 : GameState) (e : Err) (h : move_attempt g f t cap c = (g1, .error e)) : g1 = g := by
  unfold move_attempt at h
  cases hgp : move_get_piece g f c with
  | error e' =>
    rw [hgp] at h
    cases h
    rfl
  | ok pp =>
    obtain ⟨pid, p⟩ := pp
    rw [hgp] at h
    cases hv : (!(move_validate g p f t cap)) with
    | true =>
      simp only [hv, if_true] at h
      cases h
      rfl
    | false =>
      simp only [hv, Bool.false_eq_true, if_false] at h
      cases hcp : move_capture_phase g f t p cap with
      | mk gc oe =>
        rw [hcp] at h
        cases oe with
        | some e2 =>
          have hst := move_capture_phase_error_state g f t p cap gc e2 hcp
          cases h
          exact hst
        | none =>
          dsimp only at h
          cases hrp : remove_piece gc f with
          | error e3 =>
            have hfrom : alookup gc.squares f = some pid := by
              have h1 := move_capture_phase_from_preserved g f t p cap
              rw [hcp] at h1
              simpa [move_get_piece_ok_alookup g f c pid p hgp] using h1
            unfold remove_piece at hrp
            rw [hfrom] at hrp
            cases hrp
          | ok g2 =>
            rw [hrp] at h
            cases h

/-- C1: whenever `Move.update_board` raises — empty or wrong-color
origin, validation failure, en-passant bookkeeping failure, or the
post-move self-check — the returned board has exactly the pre-attempt
square dictionary and king-location fields; and whenever the pre-check
phase succeeds but leaves the mover's king in check, `update_board`
raises `InvalidMoveError` (with the board restored, by the first part). -/
theorem move_update_board_rollback :
    (∀ (g : GameState) (f t : PySquare) (cap : Bool) (c : Color) (e : Err),
       (move_update_board g f t cap c).2 = some e →
       (move_update_board g f t cap c).1.squares = g.squares ∧
       (move_update_board g f t cap c).1.whiteKing = g.whiteKing ∧
       (move_update_board g f t cap c).1.blackKing = g.blackKing) ∧
    (∀ (g : GameState) (f t : PySquare) (cap : Bool) (c : Color)
       (g1 : GameState) (pid : Nat) (p : PieceState),
       move_attempt g f t cap c = (g1, .ok (pid, p)) →
       is_king_in_check g1 c = true →
       (move_update_board g f t cap c).2 = some Err.invalidMoveError) := by
  constructor
  · intro g f t cap c e h
    unfold move_update_board at h ⊢
    cases hA : move_attempt g f t cap c with
    | mk g1 res =>
      rw [hA] at h
      cases res with
      | error e' =>
        have hst : g1 = g := move_attempt_error_state g f t cap c g1 e' hA
        subst hst
        exact ⟨rfl, rfl, rfl⟩
      | ok pp =>
        obtain ⟨pid, p⟩ := pp
        cases hc : is_king_in_check g1 c with
        | true =>
          simp only [hc, if_true]
          exact ⟨rfl, rfl, rfl⟩
        | false =>
          exact absurd h (by simp [hc])
  · intro g f t cap c g1 pid p hA hc
    unfold move_update_board
    rw [hA]
    simp only [hc, if_true]

/-- The board reached by the pre-check phase of the rook move e2-a2 on
`exposedCheckBoard`: the rook has stepped to a2, uncovering the e-file. -/
def exposedCheckAttempt : GameState :=
  ⟨[(⟨5, 1⟩, 0), (⟨5, 8⟩, 2), (⟨1, 2⟩, 1)],
   [⟨.king, .white, false, none⟩, ⟨.rook, .white, false, none⟩, ⟨.rook, .black, false, none⟩],
   some ⟨5, 1⟩, some ⟨5, 8⟩⟩

/-- Witness for C1: on `exposedCheckBoard` the rook move e2-a2 validates
but exposes the white king to the e8 rook, so `update_board` raises
`InvalidMoveError` and hands back the untouched pre-attempt board. -/
theorem move_update_board_rollback_witness :
    (move_update_board exposedCheckBoard ⟨5, 2⟩ ⟨1, 2⟩ false Color.white).2
      = some Err.invalidMoveError ∧
    (move_update_board exposedCheckBoard ⟨5, 2⟩ ⟨1, 2⟩ false Color.white).1.squares
      = exposedCheckBoard.squares ∧
    (move_update_board exposedCheckBoard ⟨5, 2⟩ ⟨1, 2⟩ false Color.white).1.whiteKing
      = exposedCheckBoard.whiteKing ∧
    (move_update_board exposedCheckBoard ⟨5, 2⟩ ⟨1, 2⟩ false Color.white).1.blackKing
      = exposedCheckBoard.blackKing :=
  ⟨move_update_board_rollback.2 exposedCheckBoard ⟨5, 2⟩ ⟨1, 2⟩ false Color.white
      exposedCheckAttempt 1 ⟨.rook, .white, false, none⟩ rfl (by decide),
   move_update_board_rollback.1 exposedCheckBoard ⟨5, 2⟩ ⟨1, 2⟩ false Color.white
      Err.invalidMoveError (by decide)⟩

/-- The home rank of each color's king. -/
def homeRank : Color → Int
  | .white => 1
  | .black => 8

/-- The chosen-side corner square used as a castling destination:
kingside (`side = true`) is file 8, queenside is file 1. -/
def castlingCorner (side : Bool) (c : Color) : PySquare :=
  ⟨if side then 8 else 1, homeRank c⟩

/-- Written from the spec's words (C4): every square strictly between the
king's home square (file 5) and the chosen corner is empty. -/
def castlingBetweenEmpty (g : GameState) (side : Bool) (c : Color) : Bool :=
  if side then
    is_empty g ⟨6, homeRank c⟩ && is_empty g ⟨7, homeRank c⟩
  else
    is_empty g ⟨4, homeRank c⟩ && is_empty g ⟨3, homeRank c⟩ && is_empty g ⟨2, homeRank c⟩

/-- The squares of `Castling.king_side` and `Castling.queen_side` are
exactly the home square (file 5) and the chosen-side corner. -/
theorem castling_sides_squares (c : Color) :
    castling_king_side c = (PySquare.mk 5 (homeRank c), castlingCorner true c) ∧
    castling_queen_side c = (PySquare.mk 5 (homeRank c), castlingCorner false c) := by
  cases c <;> exact ⟨rfl, rfl⟩

/-- Unpacking a successful square-and-heap lookup. -/
theorem pieceAtId_eq (g : GameState) (s : PySquare) (i : Nat) (p : PieceState)
    (h : pieceAtId g s = some (i, p)) :
    alookup g.squares s = some i ∧ g.heap[i]? = some p := by
  unfold pieceAtId at h
  cases hl : alookup g.squares s with
  | none => rw [hl] at h; cases h
  | some j =>
    rw [hl] at h
    dsimp only at h
    cases hh : g.heap[j]? with
    | none => rw [hh] at h; cases h
    | some q =>
      rw [hh] at h
      dsimp only at h
      simp only [Option.some.injEq, Prod.mk.injEq] at h
      obtain ⟨h1, h2⟩ := h
      exact ⟨by rw [h1], h1 ▸ h2 ▸ hh⟩

/-- The en-passant clearing loop preserves every piece's class, color and
has-moved flag (it only blanks pawn en-passant targets). -/
theorem clearLoop_preserves (l : List (PySquare × Nat)) (h : List PieceState) (i : Nat)
    (p : PieceState) (hp : h[i]? = some p) :
    ∃ q, (clearLoop l h)[i]? = some q ∧ q.kind = p.kind ∧ q.color = p.color ∧
      q.hasMoved = p.hasMoved := by
  induction l generalizing h p with
  | nil => exact ⟨p, hp, rfl, rfl, rfl⟩
  | cons e t ih =>
    obtain ⟨sq, pid⟩ := e
    cases hpq : h[pid]? with
    | none =>
      simp only [clearLoop, hpq]
      exact ih h p hp
    | some pp =>
      cases hkind : pp.kind == PieceKind.pawn with
      | false =>
        simp only [clearLoop, hpq, hkind, Bool.false_eq_true, if_false]
        exact ih h p hp
      | true =>
        simp only [clearLoop, hpq, hkind, if_true]
        by_cases hip : i = pid
        · subst hip
          have hstep := hupdate_getElem_self h i (fun q => { q with enPassant := none }) p hp
          obtain ⟨q, hq, hk2, hc2, hm2⟩ := ih _ _ hstep
          exact ⟨q, hq, hk2, hc2, hm2⟩
        · have hstep := hupdate_getElem_ne h i pid (fun q => { q with enPassant := none }) hip
          exact ih _ _ (hstep.trans hp)

/-- The kingside castling walk checks exactly f- and g-file emptiness. -/
theorem path_clear_kingside (g : GameState) (r : Int) :
    is_path_clear_for_castling g r 8 =
      (is_empty g ⟨6, r⟩ && is_empty g ⟨7, r⟩) := by
  unfold is_path_clear_for_castling
  dsimp only
  rw [if_pos (by norm_num), show rangeUp (5 + 1) 8 = [6, 7] from by decide]
  simp [List.all_cons]

/-- The queenside castling walk checks exactly d-, c- and b-file
emptiness. -/
theorem path_clear_queenside (g : GameState) (r : Int) :
    is_path_clear_for_castling g r 1 =
      (is_empty g ⟨4, r⟩ && is_empty g ⟨3, r⟩ && is_empty g ⟨2, r⟩) := by
  unfold is_path_clear_for_castling
  dsimp only
  rw [if_neg (by norm_num), show rangeDown (5 - 1) 1 = [4, 3, 2] from by decide]
  simp [List.all_cons, Bool.and_assoc]

/-- With a right-colored king on its home square and a right-colored rook
on the chosen corner, `King.is_valid_move` for the castling destination
reduces to: neither piece has moved and the path between them is clear. -/
theorem king_castle_shape_valid (g : GameState) (c : Color) (side : Bool)
    (K R : PieceState) (rid : Nat)
    (hK : K.kind = PieceKind.king) (hKc : K.color = c)
    (hr : pieceAtId g (castlingCorner side c) = some (rid, R))
    (hR : R.kind = PieceKind.rook) (hRc : R.color = c) :
    is_valid_move g K (PySquare.mk 5 (homeRank c)) (castlingCorner side c) =
      (!K.hasMoved && (!R.hasMoved && castlingBetweenEmpty g side c)) := by
  obtain ⟨halR, hheapR⟩ := pieceAtId_eq _ _ _ _ hr
  have hpaR : pieceAt g (castlingCorner side c) = some R := by
    unfold pieceAt
    rw [halR]
    dsimp only
    exact hheapR
  have hisrook : is_rook g (castlingCorner side c) c = true := by
    unfold is_rook is_piece_of_type_and_color
    rw [hpaR]
    simp [hR, hRc]
  unfold is_valid_move
  rw [hK]
  unfold king_is_valid_move
  cases side <;> cases c <;>
    cases hKm : K.hasMoved <;> cases hRm : R.hasMoved <;>
      simp_all [castlingCorner, homeRank, castlingBetweenEmpty,
        path_clear_kingside, path_clear_queenside, PySquare.mk.injEq]

/-- Updating a king-location field never touches the square dictionary. -/
theorem update_king_position_squares (g : GameState) (p : PieceState) (t : PySquare) :
    (update_king_position g p t).squares = g.squares := by
  unfold update_king_position
  split
  · split <;> rfl
  · rfl

/-- C4: with the moving color's king on its home square and a same-color
rook on the chosen corner, `Castling.update_board` succeeds iff neither
king nor rook has moved, every square strictly between them is empty, and
the king is not currently in check; and on success the king piece stands
on file 7 (kingside) or 3 (queenside) and the rook on file 6 or 4 of the
home rank, and both pieces report has-moved. -/
theorem castling_update_characterisation (g : GameState) (c : Color) (side : Bool)
    (kid rid : Nat) (K R : PieceState)
    (hk : pieceAtId g (PySquare.mk 5 (homeRank c)) = some (kid, K))
    (hK : K.kind = PieceKind.king) (hKc : K.color = c)
    (hr : pieceAtId g (castlingCorner side c) = some (rid, R))
    (hR : R.kind = PieceKind.rook) (hRc : R.color = c) :
    ((castling_update_board g (PySquare.mk 5 (homeRank c)) (castlingCorner side c) c).2
        = none ↔
      (K.hasMoved = false ∧ R.hasMoved = false ∧
       castlingBetweenEmpty g side c = true ∧ is_king_in_check g c = false)) ∧
    ((castling_update_board g (PySquare.mk 5 (homeRank c)) (castlingCorner side c) c).2
        = none →
      alookup (castling_update_board g (PySquare.mk 5 (homeRank c))
          (castlingCorner side c) c).1.squares
          (PySquare.mk (if side then 7 else 3) (homeRank c)) = some kid ∧
      alookup (castling_update_board g (PySquare.mk 5 (homeRank c))
          (castlingCorner side c) c).1.squares
          (PySquare.mk (if side then 6 else 4) (homeRank c)) = some rid ∧
      (∃ K', (castling_update_board g (PySquare.mk 5 (homeRank c))
          (castlingCorner side c) c).1.heap[kid]? = some K' ∧
        K'.kind = PieceKind.king ∧ K'.color = c ∧ K'.hasMoved = true) ∧
      (∃ R', (castling_update_board g (PySquare.mk 5 (homeRank c))
          (castlingCorner side c) c).1.heap[rid]? = some R' ∧
        R'.kind = PieceKind.rook ∧ R'.color = c ∧ R'.hasMoved = true)) := by
  obtain ⟨halK, hheapK⟩ := pieceAtId_eq _ _ _ _ hk
  obtain ⟨halR, hheapR⟩ := pieceAtId_eq _ _ _ _ hr
  have hpaK : pieceAt g (PySquare.mk 5 (homeRank c)) = some K := by
    unfold pieceAt
    rw [halK]
    dsimp only
    exact hheapK
  have hisking : is_king g (PySquare.mk 5 (homeRank c)) c = true := by
    unfold is_king is_piece_of_type_and_color
    rw [hpaK]
    simp [hK, hKc]
  have hkr : kid ≠ rid := by
    intro hh
    rw [hh] at hheapK
    rw [hheapR] at hheapK
    have hRK : R = K := by simpa using hheapK
    rw [hRK, hK] at hR
    simp at hR
  have hvalid := king_castle_shape_valid g c side K R rid hK hKc hr hR hRc
  unfold castling_update_board
  simp only [hisking, eq_self_iff_true, if_true, hk]
  rw [hvalid]
  by_cases hcond : (!K.hasMoved && (!R.hasMoved && castlingBetweenEmpty g side c)) = true
  case neg =>
    rw [if_neg hcond]
    constructor
    · constructor
      · intro h
        simp at h
      · rintro ⟨h1, h2, h3, h4⟩
        exact absurd (by simp [h1, h2, h3]) hcond
    · intro h
      simp at h
  case pos =>
    rw [if_pos hcond]
    simp only [Bool.and_eq_true, Bool.not_eq_true'] at hcond
    obtain ⟨hKm, hRm, hbe⟩ := hcond
    cases hchk : is_king_in_check g c with
    | true =>
      simp only [hchk, eq_self_iff_true, if_true]
      constructor
      · simp [hchk]
      · intro h
        simp at h
    | false =>
      simp only [hchk, Bool.false_eq_true, if_false, hr]
      cases side with
      | true =>
        have hcorner : castlingCorner true c = PySquare.mk 8 (homeRank c) := rfl
        rw [hcorner] at halR
        simp only [hcorner, eq_self_iff_true, if_true]
        norm_num
        have h56 : PySquare.mk 5 (homeRank c) ≠ PySquare.mk 6 (homeRank c) := by
          simp [PySquare.mk.injEq]
        have h57 : PySquare.mk 5 (homeRank c) ≠ PySquare.mk 7 (homeRank c) := by
          simp [PySquare.mk.injEq]
        have h85 : PySquare.mk 8 (homeRank c) ≠ PySquare.mk 5 (homeRank c) := by
          simp [PySquare.mk.injEq]
        have h86 : PySquare.mk 8 (homeRank c) ≠ PySquare.mk 6 (homeRank c) := by
          simp [PySquare.mk.injEq]
        have h87 : PySquare.mk 8 (homeRank c) ≠ PySquare.mk 7 (homeRank c) := by
          simp [PySquare.mk.injEq]
        have h78 : PySquare.mk 7 (homeRank c) ≠ PySquare.mk 8 (homeRank c) := by
          simp [PySquare.mk.injEq]
        have h75 : PySquare.mk 7 (homeRank c) ≠ PySquare.mk 5 (homeRank c) := by
          simp [PySquare.mk.injEq]
        have h76 : PySquare.mk 7 (homeRank c) ≠ PySquare.mk 6 (homeRank c) := by
          simp [PySquare.mk.injEq]
        have h68 : PySquare.mk 6 (homeRank c) ≠ PySquare.mk 8 (homeRank c) := by
          simp [PySquare.mk.injEq]
        have h65 : PySquare.mk 6 (homeRank c) ≠ PySquare.mk 5 (homeRank c) := by
          simp [PySquare.mk.injEq]
        have hal5 : alookup (ainsert (ainsert g.squares (PySquare.mk 7 (homeRank c)) kid)
            (PySquare.mk 6 (homeRank c)) rid) (PySquare.mk 5 (homeRank c)) = some kid := by
          rw [alookup_ainsert_ne _ _ _ _ h56, alookup_ainsert_ne _ _ _ _ h57]
          exact halK
        have hrm1 : remove_piece (add_piece (add_piece g kid (PySquare.mk 7 (homeRank c))) rid (PySquare.mk 6 (homeRank c))) (PySquare.mk 5 (homeRank c)) = Except.ok { g with squares := aerase (ainsert (ainsert g.squares (PySquare.mk 7 (homeRank c)) kid) (PySquare.mk 6 (homeRank c)) rid) (PySquare.mk 5 (homeRank c)) } := by
          unfold remove_piece add_piece
          dsimp only
          rw [hal5]
        have hal8 : alookup (aerase (ainsert (ainsert g.squares (PySquare.mk 7 (homeRank c)) kid) (PySquare.mk 6 (homeRank c)) rid) (PySquare.mk 5 (homeRank c))) (PySquare.mk 8 (homeRank c)) = some rid := by
          rw [alookup_aerase_ne _ _ _ h85, alookup_ainsert_ne _ _ _ _ h86,
            alookup_ainsert_ne _ _ _ _ h87]
          exact halR
        have hrm2 : remove_piece { g with squares := aerase (ainsert (ainsert g.squares (PySquare.mk 7 (homeRank c)) kid) (PySquare.mk 6 (homeRank c)) rid) (PySquare.mk 5 (homeRank c)) } (PySquare.mk 8 (homeRank c)) = Except.ok { g with squares := aerase (aerase (ainsert (ainsert g.squares (PySquare.mk 7 (homeRank c)) kid) (PySquare.mk 6 (homeRank c)) rid) (PySquare.mk 5 (homeRank c))) (PySquare.mk 8 (homeRank c)) } := by
          unfold remove_piece
          dsimp only
          rw [hal8]
        simp only [hrm1, hrm2]
        constructor
        · simp [hKm, hRm, hbe]
        · intro _
          refine ⟨?_, ?_, ?_, ?_⟩
          · rw [update_king_position_squares]
            simp only [clear_en_passant_squares, set_has_moved]
            rw [alookup_aerase_ne _ _ _ h78, alookup_aerase_ne _ _ _ h75,
              alookup_ainsert_ne _ _ _ _ h76, alookup_ainsert_self]
          · rw [update_king_position_squares]
            simp only [clear_en_passant_squares, set_has_moved]
            rw [alookup_aerase_ne _ _ _ h68, alookup_aerase_ne _ _ _ h65,
              alookup_ainsert_self]
          · rw [update_king_position_heap]
            simp only [clear_en_passant_squares, set_has_moved]
            have hH1 : (hupdate g.heap kid fun p => { p with hasMoved := true })[kid]? =
                some { K with hasMoved := true } :=
              hupdate_getElem_self g.heap kid _ K hheapK
            have hH2 : (hupdate (hupdate g.heap kid fun p => { p with hasMoved := true }) rid
                fun p => { p with hasMoved := true })[kid]? = some { K with hasMoved := true } := by
              rw [hupdate_getElem_ne _ _ _ _ hkr]
              exact hH1
            obtain ⟨K', hl1, hl2, hl3, hl4⟩ := clearLoop_preserves _ _ kid _ hH2
            exact ⟨K', hl1, hl2.trans hK, hl3.trans hKc, hl4⟩
          · rw [update_king_position_heap]
            simp only [clear_en_passant_squares, set_has_moved]
            have hH1 : (hupdate g.heap kid fun p => { p with hasMoved := true })[rid]? =
                some R := by
              rw [hupdate_getElem_ne _ _ _ _ (Ne.symm hkr)]
              exact hheapR
            have hH2 : (hupdate (hupdate g.heap kid fun p => { p with hasMoved := true }) rid
                fun p => { p with hasMoved := true })[rid]? = some { R with hasMoved := true } :=
              hupdate_getElem_self _ rid _ R hH1
            obtain ⟨R', hl1, hl2, hl3, hl4⟩ := clearLoop_preserves _ _ rid _ hH2
            exact ⟨R', hl1, hl2.trans hR, hl3.trans hRc, hl4⟩
      | false =>
        have hcorner : castlingCorner false c = PySquare.mk 1 (homeRank c) := rfl
        rw [hcorner] at halR
        simp only [hcorner, eq_self_iff_true, if_true]
        norm_num
        have h54 : PySquare.mk 5 (homeRank c) ≠ PySquare.mk 4 (homeRank c) := by
          simp [PySquare.mk.injEq]
        have h53 : PySquare.mk 5 (homeRank c) ≠ PySquare.mk 3 (homeRank c) := by
          simp [PySquare.mk.injEq]
        have h15 : PySquare.mk 1 (homeRank c) ≠ PySquare.mk 5 (homeRank c) := by
          simp [PySquare.mk.injEq]
        have h14 : PySquare.mk 1 (homeRank c) ≠ PySquare.mk 4 (homeRank c) := by
          simp [PySquare.mk.injEq]
        have h13 : PySquare.mk 1 (homeRank c) ≠ PySquare.mk 3 (homeRank c) := by
          simp [PySquare.mk.injEq]
        have h31 : PySquare.mk 3 (homeRank c) ≠ PySquare.mk 1 (homeRank c) := by
          simp [PySquare.mk.injEq]
        have h35 : PySquare.mk 3 (homeRank c) ≠ PySquare.mk 5 (homeRank c) := by
          simp [PySquare.mk.injEq]
        have h34 : PySquare.mk 3 (homeRank c) ≠ PySquare.mk 4 (homeRank c) := by
          simp [PySquare.mk.injEq]
        have h41 : PySquare.mk 4 (homeRank c) ≠ PySquare.mk 1 (homeRank c) := by
          simp [PySquare.mk.injEq]
        have h45 : PySquare.mk 4 (homeRank c) ≠ PySquare.mk 5 (homeRank c) := by
          simp [PySquare.mk.injEq]
        have hal5 : alookup (ainsert (ainsert g.squares (PySquare.mk 3 (homeRank c)) kid)
            (PySquare.mk 4 (homeRank c)) rid) (PySquare.mk 5 (homeRank c)) = some kid := by
          rw [alookup_ainsert_ne _ _ _ _ h54, alookup_ainsert_ne _ _ _ _ h53]
          exact halK
        have hrm1 : remove_piece (add_piece (add_piece g kid (PySquare.mk 3 (homeRank c))) rid (PySquare.mk 4 (homeRank c))) (PySquare.mk 5 (homeRank c)) = Except.ok { g with squares := aerase (ainsert (ainsert g.squares (PySquare.mk 3 (homeRank c)) kid) (PySquare.mk 4 (homeRank c)) rid) (PySquare.mk 5 (homeRank c)) } := by
          unfold remove_piece add_piece
          dsimp only
          rw [hal5]
        have hal1 : alookup (aerase (ainsert (ainsert g.squares (PySquare.mk 3 (homeRank c)) kid) (PySquare.mk 4 (homeRank c)) rid) (PySquare.mk 5 (homeRank c))) (PySquare.mk 1 (homeRank c)) = some rid := by
          rw [alookup_aerase_ne _ _ _ h15, alookup_ainsert_ne _ _ _ _ h14,
            alookup_ainsert_ne _ _ _ _ h13]
          exact halR
        have hrm2 : remove_piece { g with squares := aerase (ainsert (ainsert g.squares (PySquare.mk 3 (homeRank c)) kid) (PySquare.mk 4 (homeRank c)) rid) (PySquare.mk 5 (homeRank c)) } (PySquare.mk 1 (homeRank c)) = Except.ok { g with squares := aerase (aerase (ainsert (ainsert g.squares (PySquare.mk 3 (homeRank c)) kid) (PySquare.mk 4 (homeRank c)) rid) (PySquare.mk 5 (homeRank c))) (PySquare.mk 1 (homeRank c)) } := by
          unfold remove_piece
          dsimp only
          rw [hal1]
        simp only [hrm1, hrm2]
        constructor
        · simp [hKm, hRm, hbe]
        · intro _
          refine ⟨?_, ?_, ?_, ?_⟩
          · rw [update_king_position_squares]
            simp only [clear_en_passant_squares, set_has_moved]
            rw [alookup_aerase_ne _ _ _ h31, alookup_aerase_ne _ _ _ h35,
              alookup_ainsert_ne _ _ _ _ h34, alookup_ainsert_self]
          · rw [update_king_position_squares]
            simp only [clear_en_passant_squares, set_has_moved]
            rw [alookup_aerase_ne _ _ _ h41, alookup_aerase_ne _ _ _ h45,
              alookup_ainsert_self]
          · rw [update_king_position_heap]
            simp only [clear_en_passant_squares, set_has_moved]
            have hH1 : (hupdate g.heap kid fun p => { p with hasMoved := true })[kid]? =
                some { K with hasMoved := true } :=
              hupdate_getElem_self g.heap kid _ K hheapK
            have hH2 : (hupdate (hupdate g.heap kid fun p => { p with hasMoved := true }) rid
                fun p => { p with hasMoved := true })[kid]? = some { K with hasMoved := true } := by
              rw [hupdate_getElem_ne _ _ _ _ hkr]
              exact hH1
            obtain ⟨K', hl1, hl2, hl3, hl4⟩ := clearLoop_preserves _ _ kid _ hH2
            exact ⟨K', hl1, hl2.trans hK, hl3.trans hKc, hl4⟩
          · rw [update_king_position_heap]
            simp only [clear_en_passant_squares, set_has_moved]
            have hH1 : (hupdate g.heap kid fun p => { p with hasMoved := true })[rid]? =
                some R := by
              rw [hupdate_getElem_ne _ _ _ _ (Ne.symm hkr)]
              exact hheapR
            have hH2 : (hupdate (hupdate g.heap kid fun p => { p with hasMoved := true }) rid
                fun p => { p with hasMoved := true })[rid]? = some { R with hasMoved := true } :=
              hupdate_getElem_self _ rid _ R hH1
            obtain ⟨R', hl1, hl2, hl3, hl4⟩ := clearLoop_preserves _ _ rid _ hH2
            exact ⟨R', hl1, hl2.trans hR, hl3.trans hRc, hl4⟩

/-- Witness for C4: white kingside castling on `castleDemoBoard` (king
e1, rook h1, empty f1/g1, not in check) succeeds, and the king piece
(id 0) ends on file 7 of rank 1 with its has-moved flag set. -/
theorem castling_update_characterisation_witness :
    (castling_update_board castleDemoBoard (PySquare.mk 5 (homeRank Color.white))
        (castlingCorner true Color.white) Color.white).2 = none ∧
    alookup (castling_update_board castleDemoBoard (PySquare.mk 5 (homeRank Color.white))
        (castlingCorner true Color.white) Color.white).1.squares
        (PySquare.mk (if true then 7 else 3) (homeRank Color.white)) = some 0 ∧
    (∃ K', (castling_update_board castleDemoBoard (PySquare.mk 5 (homeRank Color.white))
        (castlingCorner true Color.white) Color.white).1.heap[0]? = some K' ∧
      K'.kind = PieceKind.king ∧ K'.color = Color.white ∧ K'.hasMoved = true) := by
  have h := castling_update_characterisation castleDemoBoard Color.white true 0 1
    ⟨.king, .white, false, none⟩ ⟨.rook, .white, false, none⟩ (by decide) rfl rfl
    (by decide) rfl rfl
  have hs : (castling_update_board castleDemoBoard (PySquare.mk 5 (homeRank Color.white))
      (castlingCorner true Color.white) Color.white).2 = none :=
    h.1.mpr ⟨rfl, rfl, by decide, by decide⟩
  exact ⟨hs, (h.2 hs).1, (h.2 hs).2.2.1⟩
